import Mathlib

/-!
Verification development for the Hunter listing-aggregation pipeline.

The definitions below are a shallow embedding of the TypeScript source:
  * `src/lib/domain/normalize.ts`      — normalizeAddress, geoBucket
  * `src/worker/pipeline/dedupe.ts`    — scoreMatch, findCandidates,
    dedupeAndUpsertCanonical, detectAndLogChanges, updateCanonicalBestFields
  * `src/worker/pipeline/ingest.ts`    — ingestOne
  * `src/worker/pipeline/freshness.ts` — updateFreshness
  * `src/worker/http/fetchPolicy.ts`   — fetchWithPolicy
  * `src/worker/http/firecrawlMap.ts`  — filterNewUrls
  * `src/worker/pipeline/registryCrawler.ts` — runRegistryCrawler

Strings are modelled as `List Char` where regex work is needed; JavaScript
numbers appearing in listing fields (rents, bedrooms, coordinates) are
modelled as `ℚ`, timestamps (`Date` values, millisecond epochs) as `ℤ`,
database row ids (cuid strings) as `ℕ`.  The persistent store is modelled
as in-memory lists of rows; Prisma `upsert` on a unique key becomes
update-in-place when a row with the key exists and append otherwise.
Network, logging and timing side effects are not modelled; where control
flow depends on them the dependence is made an explicit parameter
(environment functions standing for fetch / discovery results).
-/

namespace Hunter

/-! ## Character classes and string helpers (JS regex semantics)

`isWordChar` is the JS regex `\w` class restricted to ASCII, `isWs` the
`\s` class restricted to the ASCII whitespace actually occurring in
addresses.  `asciiLower` models `String.prototype.toLowerCase` on ASCII
input (all inputs in this development are ASCII). -/

def isWordChar (c : Char) : Bool :=
  (97 ≤ c.toNat && c.toNat ≤ 122) || (65 ≤ c.toNat && c.toNat ≤ 90) ||
  (48 ≤ c.toNat && c.toNat ≤ 57) || c == '_'

def isWs (c : Char) : Bool :=
  c == ' ' || c == '\t' || c == '\n' || c == '\r'

def asciiLower (c : Char) : Char :=
  if 65 ≤ c.toNat && c.toNat ≤ 90 then Char.ofNat (c.toNat + 32) else c

def trimWs (s : List Char) : List Char :=
  ((s.dropWhile isWs).reverse.dropWhile isWs).reverse

/-- JS `\b` between a previous character (none at the start of the string)
and the next character: a word boundary holds iff exactly one side is a
word character. -/
def wordBoundary (prev : Option Char) (next : Char) : Bool :=
  (match prev with
   | none => false
   | some p => isWordChar p) != isWordChar next

/-! ## `normalizeAddress` (src/lib/domain/normalize.ts)

```
let addr = input.toLowerCase().trim();
addr = addr.replace(/\b(apt|apartment|unit|suite|ste|#)\s*\.?\s*\w*$/i, "");
addr = addr
  .replace(/\bstreet\b/g, "st").replace(/\bavenue\b/g, "ave")
  .replace(/\bboulevard\b/g, "blvd").replace(/\bdrive\b/g, "dr")
  .replace(/\broad\b/g, "rd").replace(/\bplace\b/g, "pl")
  .replace(/\blast\b/g, "e")          -- note: the source says "last", not "east"
  .replace(/\bwest\b/g, "w").replace(/\bnorth\b/g, "n").replace(/\bsouth\b/g, "s");
addr = addr.replace(/\s+/g, " ").trim();
addr = addr.replace(/[.,]+$/, "").trim();
```
-/

/-- Alternatives of the unit-suffix regex, in the source's order. -/
def unitAlts : List (List Char) :=
  ["apt".data, "apartment".data, "unit".data, "suite".data, "ste".data, "#".data]

/-- The tail `\s*\.?\s*\w*$` of the unit-suffix regex: the remaining
characters must be whitespace, then an optional dot, then whitespace,
then word characters only.  The three character classes are disjoint, so
greedy matching with backtracking accepts exactly these strings. -/
def unitTailOk (l : List Char) : Bool :=
  let l1 := l.dropWhile isWs
  let l2 := match l1 with
    | '.' :: r => r
    | _ => l1
  (l2.dropWhile isWs).all isWordChar

/-- Does the unit-suffix regex match starting at the head of `s`, given
the character preceding it in the whole string? -/
def unitMatchAt (prev : Option Char) (s : List Char) : Bool :=
  unitAlts.any fun a =>
    a.isPrefixOf s && wordBoundary prev (a.headD ' ') && unitTailOk (s.drop a.length)

/-- `replace` with the unit-suffix pattern: scan left to right for the
first position where the pattern matches; the match extends to the end of
the string (it is `$`-anchored) and is replaced by the empty string. -/
def stripUnitSuffixGo (prev : Option Char) : List Char → List Char
  | [] => []
  | c :: rest =>
    if unitMatchAt prev (c :: rest) then []
    else c :: stripUnitSuffixGo (some c) rest

def stripUnitSuffix (s : List Char) : List Char :=
  stripUnitSuffixGo none s

/-- After a pattern ending in a word character, the trailing `\b` of
`\bword\b` requires the next character to be non-word (or the end). -/
def afterWordBoundary : List Char → Bool
  | [] => true
  | d :: _ => !isWordChar d

/-- Global regex replace of `\bw\b` by `r`, scanning left to right,
non-overlapping; the scan continues in the original string after each
match (the pattern words are nonempty and all-word-characters).  The
`fuel` argument only makes the recursion structural: every step consumes
at least one character of the scanned string, so with `fuel` at least the
string's length the fuel never runs out. -/
def replaceWordGo (w r : List Char) : Nat → Option Char → List Char → List Char
  | 0, _, l => l
  | _ + 1, _, [] => []
  | fuel + 1, prev, c :: rest =>
    if w.isPrefixOf (c :: rest) && wordBoundary prev c &&
        afterWordBoundary (rest.drop (w.length - 1)) then
      r ++ replaceWordGo w r fuel (some (w.getLastD c)) (rest.drop (w.length - 1))
    else
      c :: replaceWordGo w r fuel (some c) rest

def replaceWordAll (s : List Char) (w r : String) : List Char :=
  replaceWordGo w.data r.data s.length none s

/-- The ten `\bword\b` substitutions of `normalizeAddress`, in source
order.  The seventh pair is `("last", "e")` exactly as in the source
(`.replace(/\blast\b/g, "e")`). -/
def abbrevPairs : List (String × String) :=
  [("street", "st"), ("avenue", "ave"), ("boulevard", "blvd"), ("drive", "dr"),
   ("road", "rd"), ("place", "pl"), ("last", "e"), ("west", "w"),
   ("north", "n"), ("south", "s")]

/-- `replace(/\s+/g, " ")`: each maximal whitespace run becomes one space. -/
def collapseWsGo : Bool → List Char → List Char
  | _, [] => []
  | prevWs, c :: rest =>
    if isWs c then
      if prevWs then collapseWsGo true rest else ' ' :: collapseWsGo true rest
    else c :: collapseWsGo false rest

def collapseWs (s : List Char) : List Char :=
  collapseWsGo false s

/-- `replace(/[.,]+$/, "")`: drop the maximal trailing run of dots and
commas. -/
def stripTrailingPunct (s : List Char) : List Char :=
  (s.reverse.dropWhile (fun c => c == '.' || c == ',')).reverse

def normalizeAddress (input : String) : String :=
  let a0 := trimWs (input.data.map asciiLower)
  let a1 := stripUnitSuffix a0
  let a2 := abbrevPairs.foldl (fun s p => replaceWordAll s p.1 p.2) a1
  let a3 := trimWs (collapseWs a2)
  String.mk (trimWs (stripTrailingPunct a3))

/-! ## Data model (prisma/schema.prisma, src/lib/domain/types.ts)

Rows carry the fields the pipeline reads or writes.  `RawListing.id`,
`NormalizedListing.id` and `CanonicalUnit.id` are cuid strings in the
store, modelled as naturals handed out by per-table counters in `DB`. -/

inductive ActiveState
  | active
  | unknown
  | stale
  deriving DecidableEq, Repr

inductive ChangeKind
  | price_change
  | field_change
  | status_change
  deriving DecidableEq, Repr

/-- The JSON payload of a ChangeLog row, as written by
`detectAndLogChanges`: either `{oldRentGross, newRentGross}` or
`{field: "brokerFee", oldValue, newValue}`. -/
inductive ChangePayload
  | price (oldRentGross newRentGross : ℚ)
  | fee (oldValue newValue : Bool)
  deriving DecidableEq, Repr

structure ChangeEntry where
  canonicalUnitId : Nat
  normalizedListingId : Option Nat
  kind : ChangeKind
  payload : ChangePayload
  deriving DecidableEq, Repr

/-- `NormalizedListingInput`: what an adapter's `parse` returns; missing
fields are explicit absence. -/
structure ParsedInput where
  title : String
  description : Option String := none
  address : Option String := none
  unit : Option String := none
  neighborhood : Option String := none
  borough : Option String := none
  lat : Option ℚ := none
  lng : Option ℚ := none
  rentGross : Option ℚ := none
  rentNetEffective : Option ℚ := none
  bedrooms : Option ℚ := none
  bathrooms : Option ℚ := none
  brokerFee : Option Bool := none
  leaseTermMonths : Option ℚ := none
  moveInCostNotes : Option String := none
  petPolicy : Option String := none
  laundry : Option String := none
  elevator : Option Bool := none
  doorman : Option Bool := none
  images : Option (List String) := none
  deriving DecidableEq, Repr

structure RawRow where
  id : Nat
  source : String
  sourceUrl : String
  sourceListingId : Option String
  fetchedAt : Int
  httpStatus : Option Int
  rawContent : Option String
  parseVersion : String
  extractedJson : Option ParsedInput := none
  deriving DecidableEq, Repr

structure Listing where
  id : Nat
  rawListingId : Nat
  source : String
  sourceUrl : String
  title : String
  description : Option String := none
  address : Option String := none
  unit : Option String := none
  neighborhood : Option String := none
  borough : Option String := none
  lat : Option ℚ := none
  lng : Option ℚ := none
  rentGross : Option ℚ := none
  rentNetEffective : Option ℚ := none
  bedrooms : Option ℚ := none
  bathrooms : Option ℚ := none
  brokerFee : Option Bool := none
  leaseTermMonths : Option ℚ := none
  moveInCostNotes : Option String := none
  petPolicy : Option String := none
  laundry : Option String := none
  elevator : Option Bool := none
  doorman : Option Bool := none
  images : List String := []
  firstSeenAt : Int
  lastSeenAt : Int
  deriving DecidableEq, Repr

structure CanonicalUnit where
  id : Nat
  canonicalAddress : Option String := none
  canonicalUnit : Option String := none
  neighborhood : Option String := none
  borough : Option String := none
  lat : Option ℚ := none
  lng : Option ℚ := none
  bedrooms : Option ℚ := none
  bathrooms : Option ℚ := none
  bestRentGross : Option ℚ := none
  bestRentNetEffective : Option ℚ := none
  brokerFee : Option Bool := none
  activeState : ActiveState := .active
  lastSeenAt : Int
  deriving DecidableEq, Repr

structure UnitPosting where
  canonicalUnitId : Nat
  normalizedListingId : Nat
  matchScore : Nat
  deriving DecidableEq, Repr

/-- The store, as the pipeline sees it. -/
structure DB where
  raws : List RawRow := []
  listings : List Listing := []
  units : List CanonicalUnit := []
  postings : List UnitPosting := []
  changeLog : List ChangeEntry := []
  nextRawId : Nat := 0
  nextListingId : Nat := 0
  nextUnitId : Nat := 0
  deriving Repr

/-! ## `geoBucket` (src/lib/domain/normalize.ts)

The source renders the bucket as the string `"lat.toFixed(3),lng.toFixed(3)"`
after rounding each coordinate to 3 decimals; two buckets are equal iff the
rounded thousandth-degree integers are equal, so the bucket is modelled as
that pair of integers.  `jsRound` is JS `Math.round`, i.e. ⌊x + 1/2⌋. -/

abbrev GeoBucket := ℤ × ℤ

def jsRound (q : ℚ) : ℤ := ⌊q + 1 / 2⌋

def geoBucket (lat lng : Option ℚ) : Option GeoBucket :=
  match lat, lng with
  | some a, some b => some (jsRound (a * 1000), jsRound (b * 1000))
  | _, _ => none

/-- JS truthiness of a `string | null` value: non-null and nonempty. -/
def strTruthy : Option String → Bool
  | some v => v != ""
  | none => false

/-- `listing.address ? normalizeAddress(listing.address) : null`. -/
def normAddrOf (listing : Listing) : Option String :=
  match listing.address with
  | some a => if a != "" then some (normalizeAddress a) else none
  | none => none

def lowerStr (s : String) : String := String.mk (s.data.map asciiLower)

/-! ## Matching engine (src/worker/pipeline/dedupe.ts) -/

/-- `scoreMatch`: +40 exact normalized-address equality, +30
case-insensitive unit-label equality (both truthy), +20 equal geo
buckets (candidate coordinates non-null), +10 bedrooms within 0.5 and
bathrooms absent on either side or within 0.5. -/
def scoreMatch (listing : Listing) (candidate : CanonicalUnit)
    (normAddr : Option String) (bucket : Option GeoBucket) : Nat :=
  let s1 := if strTruthy normAddr && (candidate.canonicalAddress == normAddr)
    then 40 else 0
  let s2 := if strTruthy listing.unit && strTruthy candidate.canonicalUnit &&
      (listing.unit.map lowerStr == candidate.canonicalUnit.map lowerStr)
    then 30 else 0
  let s3 := match bucket, candidate.lat, candidate.lng with
    | some g, some _, some _ =>
      if geoBucket candidate.lat candidate.lng == some g then 20 else 0
    | _, _, _ => 0
  let s4 := match listing.bedrooms, candidate.bedrooms with
    | some lb, some cb =>
      if decide (|lb - cb| ≤ 1 / 2) &&
          (match listing.bathrooms, candidate.bathrooms with
           | some lba, some cba => decide (|lba - cba| ≤ 1 / 2)
           | _, _ => true)
      then 10 else 0
    | _, _ => 0
  s1 + s2 + s3 + s4

/-- `findCandidates`: the bounding-box prefilter parses the bucket string
back to the rounded coordinates; a candidate qualifies when its address
equals the key or its coordinates lie within ±0.001° of the bucket. -/
def candidateCond (normAddr : Option String) (bucket : Option GeoBucket)
    (u : CanonicalUnit) : Bool :=
  (strTruthy normAddr && (u.canonicalAddress == normAddr)) ||
  (match bucket, u.lat, u.lng with
   | some g, some la, some lo =>
     decide ((g.1 : ℚ) / 1000 - 1 / 1000 ≤ la) && decide (la ≤ (g.1 : ℚ) / 1000 + 1 / 1000) &&
     decide ((g.2 : ℚ) / 1000 - 1 / 1000 ≤ lo) && decide (lo ≤ (g.2 : ℚ) / 1000 + 1 / 1000)
   | _, _, _ => false)

def findCandidates (units : List CanonicalUnit) (normAddr : Option String)
    (bucket : Option GeoBucket) : List CanonicalUnit :=
  if !strTruthy normAddr && !bucket.isSome then []
  else units.filter (candidateCond normAddr bucket)

/-- One step of the best-candidate loop:
`if (score >= 60 && (!bestCandidate || score > bestCandidate.score))
   bestCandidate = { id: candidate.id, score }`. -/
def bestStep (listing : Listing) (normAddr : Option String)
    (bucket : Option GeoBucket) (acc : Option (Nat × Nat)) (c : CanonicalUnit) :
    Option (Nat × Nat) :=
  let score := scoreMatch listing c normAddr bucket
  if decide (60 ≤ score) &&
      (match acc with
       | none => true
       | some (_, s) => decide (s < score)) then
    some (c.id, score)
  else acc

/-- The candidate loop of `dedupeAndUpsertCanonical`. -/
def dedupeBest (db : DB) (listing : Listing) : Option (Nat × Nat) :=
  let normAddr := normAddrOf listing
  let bucket := geoBucket listing.lat listing.lng
  (findCandidates db.units normAddr bucket).foldl
    (bestStep listing normAddr bucket) none

def findUnit (units : List CanonicalUnit) (cuId : Nat) : Option CanonicalUnit :=
  units.find? (fun u => u.id == cuId)

/-- `prisma.unitPosting.upsert` on the unique pair
`(canonicalUnitId, normalizedListingId)`: refresh `matchScore` when the
pair exists, insert otherwise. -/
def upsertPosting (postings : List UnitPosting) (cuId nlId score : Nat) :
    List UnitPosting :=
  if postings.any (fun p => p.canonicalUnitId == cuId && p.normalizedListingId == nlId) then
    postings.map fun p =>
      if p.canonicalUnitId == cuId && p.normalizedListingId == nlId then
        { p with matchScore := score }
      else p
  else postings ++ [⟨cuId, nlId, score⟩]

/-- `prisma.canonicalUnit.update({ where: { id }, data })`. -/
def mapUnit (units : List CanonicalUnit) (cuId : Nat)
    (f : CanonicalUnit → CanonicalUnit) : List CanonicalUnit :=
  units.map fun u => if u.id == cuId then f u else u

/-- `detectAndLogChanges`: read the canonical unit's current best gross
rent and broker fee and append one ChangeLog row per differing field
(both sides non-null), price first, then broker fee. -/
def detectAndLogChanges (db : DB) (cuId : Nat) (listing : Listing) : DB :=
  match findUnit db.units cuId with
  | none => db
  | some canonical =>
    let log1 := match listing.rentGross, canonical.bestRentGross with
      | some lr, some cr =>
        if lr ≠ cr then
          db.changeLog ++ [⟨cuId, some listing.id, .price_change, .price cr lr⟩]
        else db.changeLog
      | _, _ => db.changeLog
    let log2 := match listing.brokerFee, canonical.brokerFee with
      | some lb, some cb =>
        if lb ≠ cb then
          log1 ++ [⟨cuId, some listing.id, .field_change, .fee cb lb⟩]
        else log1
      | _, _ => log1
    { db with changeLog := log2 }

/-- The body of `dedupeAndUpsertCanonical` once the listing is loaded:
score candidates; if the best scores ≥ 60 attach (upsert the posting,
detect changes, then set the unit's `lastSeenAt` to the listing's),
otherwise create a new CanonicalUnit seeded from the listing plus a
posting scored 100.  The source function's return type is
`Promise<void>`: it produces no value, so the embedding returns only the
updated store. -/
def dedupeListing (db : DB) (listing : Listing) : DB :=
  match dedupeBest db listing with
  | some (bid, score) =>
    let db1 := { db with postings := upsertPosting db.postings bid listing.id score }
    let db2 := detectAndLogChanges db1 bid listing
    { db2 with
      units := mapUnit db2.units bid fun u => { u with lastSeenAt := listing.lastSeenAt } }
  | none =>
    let newUnit : CanonicalUnit :=
      { id := db.nextUnitId
        canonicalAddress := normAddrOf listing
        canonicalUnit := listing.unit
        neighborhood := listing.neighborhood
        borough := listing.borough
        lat := listing.lat
        lng := listing.lng
        bedrooms := listing.bedrooms
        bathrooms := listing.bathrooms
        bestRentGross := listing.rentGross
        bestRentNetEffective := listing.rentNetEffective
        brokerFee := listing.brokerFee
        activeState := .active
        lastSeenAt := listing.lastSeenAt }
    { db with
      units := db.units ++ [newUnit]
      postings := db.postings ++ [⟨db.nextUnitId, listing.id, 100⟩]
      nextUnitId := db.nextUnitId + 1 }

/-- `dedupeAndUpsertCanonical(normalizedListingId)`: load the listing
(warn and return when absent) and run the matching body. -/
def dedupeAndUpsertCanonical (db : DB) (normalizedListingId : Nat) : DB :=
  match db.listings.find? (fun l => l.id == normalizedListingId) with
  | none => db
  | some listing => dedupeListing db listing

/-- The listings attached to a canonical unit, through its postings. -/
def attachedListings (db : DB) (cuId : Nat) : List Listing :=
  (db.postings.filter (fun p => p.canonicalUnitId == cuId)).filterMap
    fun p => db.listings.find? (fun l => l.id == p.normalizedListingId)

/-- `findFirst` ordered by the joined listing's `lastSeenAt` descending:
the first listing of maximal `lastSeenAt` (the source leaves the order of
ties to the store). -/
def latestListing : List Listing → Option Listing
  | [] => none
  | l :: rest =>
    match latestListing rest with
    | none => some l
    | some m => if m.lastSeenAt > l.lastSeenAt then some m else some l

/-- `updateCanonicalBestFields`: overwrite the unit's best fields (and
`lastSeenAt`) from the most recently seen attached listing, if any. -/
def updateCanonicalBestFields (db : DB) (cuId : Nat) : DB :=
  match latestListing (attachedListings db cuId) with
  | none => db
  | some listing =>
    { db with
      units := mapUnit db.units cuId fun u =>
        { u with
          bestRentGross := listing.rentGross
          bestRentNetEffective := listing.rentNetEffective
          brokerFee := listing.brokerFee
          neighborhood := listing.neighborhood
          borough := listing.borough
          lat := listing.lat
          lng := listing.lng
          bedrooms := listing.bedrooms
          bathrooms := listing.bathrooms
          lastSeenAt := listing.lastSeenAt } }

/-- Pointwise non-regression of `lastSeenAt` between two states of the
canonical-unit table, rows matched by id. -/
def lastSeenMonotone (db db' : DB) : Prop :=
  ∀ u ∈ db.units, ∀ u' ∈ db'.units, u.id = u'.id → u.lastSeenAt ≤ u'.lastSeenAt

/-! ## Ingestion pipeline (src/worker/pipeline/ingest.ts) -/

def parseVersionTag : String := "1.0.0"

/-- What `adapter.fetch(url)` resolved to. -/
structure FetchedContent where
  httpStatus : Int
  content : String
  deriving DecidableEq, Repr

def rawKey (adapterName url : String) (r : RawRow) : Bool :=
  r.source == adapterName && r.sourceUrl == url

def listingKey (adapterName url : String) (l : Listing) : Bool :=
  l.source == adapterName && l.sourceUrl == url

/-- Build a NormalizedListing's field block from a parse result (the
`parsed.x ?? null` assignments of the upsert). -/
def applyParsed (l : Listing) (rawId : Nat) (parsed : ParsedInput) (now : Int) : Listing :=
  { l with
    rawListingId := rawId
    title := parsed.title
    description := parsed.description
    address := parsed.address
    unit := parsed.unit
    neighborhood := parsed.neighborhood
    borough := parsed.borough
    lat := parsed.lat
    lng := parsed.lng
    rentGross := parsed.rentGross
    rentNetEffective := parsed.rentNetEffective
    bedrooms := parsed.bedrooms
    bathrooms := parsed.bathrooms
    brokerFee := parsed.brokerFee
    leaseTermMonths := parsed.leaseTermMonths
    moveInCostNotes := parsed.moveInCostNotes
    petPolicy := parsed.petPolicy
    laundry := parsed.laundry
    elevator := parsed.elevator
    doorman := parsed.doorman
    images := parsed.images.getD []
    lastSeenAt := now }

/-- `ingestOne(adapter, url, sourceListingId)`: fetch; upsert RawListing
on `(source, sourceUrl)` (update overwrites fetch metadata and body);
parse; write the parse snapshot back onto the raw row; upsert
NormalizedListing on the same key (update overwrites every field and
bumps `lastSeenAt`; create also sets `firstSeenAt`).  Returns the
normalized listing's id.  The adapter is represented by its name, the
fetched content and its `parse` function. -/
def ingestOne (db : DB) (adapterName url : String) (sourceListingId : Option String)
    (fetched : FetchedContent) (parse : String → ParsedInput) (now : Int) :
    DB × Nat :=
  let existingRaw := db.raws.find? (rawKey adapterName url)
  let rid := match existingRaw with
    | some r => r.id
    | none => db.nextRawId
  let newRaw : RawRow :=
    { id := db.nextRawId
      source := adapterName
      sourceUrl := url
      sourceListingId := sourceListingId
      fetchedAt := now
      httpStatus := some fetched.httpStatus
      rawContent := some fetched.content
      parseVersion := parseVersionTag }
  let db1 : DB := match existingRaw with
    | some _ =>
      { db with
        raws := db.raws.map fun r =>
          if rawKey adapterName url r then
            { r with
              fetchedAt := now
              httpStatus := some fetched.httpStatus
              rawContent := some fetched.content
              parseVersion := parseVersionTag }
          else r }
    | none =>
      { db with
        raws := db.raws ++ [newRaw]
        nextRawId := db.nextRawId + 1 }
  let parsed := parse fetched.content
  let db2 : DB := { db1 with
    raws := db1.raws.map fun (r : RawRow) =>
      if r.id == rid then { r with extractedJson := some parsed } else r }
  match db2.listings.find? (listingKey adapterName url) with
  | some l0 =>
    ({ db2 with
       listings := db2.listings.map fun l =>
         if listingKey adapterName url l then applyParsed l rid parsed now else l },
     l0.id)
  | none =>
    let newL := applyParsed
      { id := db2.nextListingId
        rawListingId := rid
        source := adapterName
        sourceUrl := url
        title := parsed.title
        firstSeenAt := now
        lastSeenAt := now } rid parsed now
    ({ db2 with
       listings := db2.listings ++ [newL]
       nextListingId := db2.nextListingId + 1 },
     db2.nextListingId)

/-! ## Freshness engine (src/worker/pipeline/freshness.ts) -/

def dayMs : Int := 86400000

/-- The conditions of the three `updateMany` calls. -/
def freshCondActive (now : Int) (u : CanonicalUnit) : Bool :=
  decide (now - 7 * dayMs ≤ u.lastSeenAt) && decide (u.activeState ≠ .active)

def freshCondUnknown (now : Int) (u : CanonicalUnit) : Bool :=
  decide (u.lastSeenAt < now - 7 * dayMs) && decide (now - 14 * dayMs ≤ u.lastSeenAt) &&
  decide (u.activeState ≠ .unknown)

def freshCondStale (now : Int) (u : CanonicalUnit) : Bool :=
  decide (u.lastSeenAt < now - 14 * dayMs) && decide (u.activeState ≠ .stale)

/-- `updateMany({where, data: {activeState}})`: the updated rows and the
affected-row count. -/
def updateManyState (cond : CanonicalUnit → Bool) (st : ActiveState)
    (units : List CanonicalUnit) : List CanonicalUnit × Nat :=
  (units.map (fun u => if cond u then { u with activeState := st } else u),
   (units.filter cond).length)

/-- `updateFreshness()`: three bulk conditional updates, run in order
active, unknown, stale; returns the reclassified units and the three
affected-row counts. -/
def updateFreshness (now : Int) (units : List CanonicalUnit) :
    List CanonicalUnit × (Nat × Nat × Nat) :=
  let r1 := updateManyState (freshCondActive now) .active units
  let r2 := updateManyState (freshCondUnknown now) .unknown r1.1
  let r3 := updateManyState (freshCondStale now) .stale r2.1
  (r3.1, (r1.2, r2.2, r3.2))

/-- Modelled from the spec (§4.7): the intended pure classification of
`activeState` from `lastSeenAt` relative to now — active within 7 days,
unknown 8–14 days, stale beyond 14 days.  Used to compare the bulk
updates against the specified state machine. -/
def specFreshState (now ls : Int) : ActiveState :=
  if now - 7 * dayMs ≤ ls then .active
  else if now - 14 * dayMs ≤ ls then .unknown
  else .stale

/-! ## Fetch policy (`fetchWithPolicy`)

The underlying `fetch` either resolves with a response (any status code)
or throws; one run of the policy is determined by the outcome of each
attempt, modelled as a function from the attempt index.  Backoff and
rate-limit waits are timing effects with no bearing on the returned
value and are not modelled. -/

inductive AttemptOutcome
  | success (httpStatus : Int) (content finalUrl : String)
  | failure (message : String)
  deriving DecidableEq, Repr

def AttemptOutcome.isFailure : AttemptOutcome → Bool
  | .failure _ => true
  | .success _ _ _ => false

structure PolicyFetchResult where
  httpStatus : Int
  content : String
  finalUrl : String
  deriving DecidableEq, Repr

/-- The error thrown once all attempts failed:
`All ${maxRetries + 1} attempts failed for ${url}: ${lastError?.message}`. -/
def allFailedMsg (url : String) (maxRetries : Nat) (lastMsg : String) : String :=
  "[fetchWithPolicy] All " ++ toString (maxRetries + 1) ++ " attempts failed for "
    ++ url ++ ": " ++ lastMsg

/-- The attempt loop `for (attempt = 0; attempt <= maxRetries; attempt++)`:
a completed response returns immediately (`response.url || url` as the
final URL); a thrown fetch records the error and retries; exhaustion
throws the aggregate error.  The loop is driven by the number of
remaining attempts, `maxRetries + 1 - i`, so that the recursion is
structural; `i` is the attempt index. -/
def fetchGo (url : String) (attempts : Nat → AttemptOutcome) (maxRetries : Nat) :
    Nat → Nat → Option String → Except String PolicyFetchResult
  | 0, _, lastErr => .error (allFailedMsg url maxRetries (lastErr.getD "undefined"))
  | remaining + 1, i, _ =>
    match attempts i with
    | .success st c fu => .ok ⟨st, c, if fu == "" then url else fu⟩
    | .failure m => fetchGo url attempts maxRetries remaining (i + 1) (some m)

def fetchWithPolicy (url : String) (attempts : Nat → AttemptOutcome)
    (maxRetries : Nat) : Except String PolicyFetchResult :=
  fetchGo url attempts maxRetries (maxRetries + 1) 0 none

/-! ## Registry crawler (src/worker/pipeline/registryCrawler.ts)

Network effects are the crawler's only inputs: discovery results per
(outer-loop iteration, source), fetched content per URL, the per-source
parse function, and the `sourceListingId` the crawler extracts from the
URL with its two regexes.  They are bundled as an environment.  All
`new Date()` stamps during one run are modelled by a single `crawlNow`.
The ScrapeJob bookkeeping row and console logging are not modelled; the
returned stats mirror `RegistryCrawlerStats`, plus `loopsRun`, a
model-only observation counting executed outer-loop iterations. -/

structure CrawlerEnv where
  listingLinks : Nat → String → List String
  content : String → FetchedContent
  parse : String → String → ParsedInput
  sid : String → Option String

structure RegistryStats where
  startingCanonicalCount : Nat := 0
  endingCanonicalCount : Nat := 0
  totalDiscovered : Nat := 0
  totalNewUrls : Nat := 0
  totalIngested : Nat := 0
  totalCanonicalAdded : Nat := 0
  totalErrors : Nat := 0
  loopsRun : Nat := 0
  deriving DecidableEq, Repr

def crawlNow : Int := 0

/-- `filterNewUrls(urls, source)` (src/worker/http/firecrawlMap.ts): keep
the URLs with no NormalizedListing row for `(source, url)`. -/
def filterNewUrls (db : DB) (urls : List String) (source : String) : List String :=
  urls.filter fun url =>
    !(db.listings.any fun l => l.source == source && l.sourceUrl == url)

structure CrawlState where
  db : DB
  stats : RegistryStats
  urlsAttempted : Nat
  deriving Repr

/-- The per-URL batch loop.  `ingestOne` always returns a (truthy cuid)
id in this model, so `totalIngested` is always bumped.  The source's
`dedupeAndUpsertCanonical` has return type `Promise<void>`: `result` is
`undefined`, so the caller's `result?.createdNew` is `undefined` — falsy —
which the explicit `createdNewObserved := false` below records.  After
each URL the mid-batch target check
`totalCanonicalAdded + startingCanonicalCount >= targetCanonicalCount`
breaks out of the batch. -/
def ingestBatch (env : CrawlerEnv) (source : String) (target : Nat) :
    CrawlState → List String → CrawlState
  | st, [] => st
  | st, url :: rest =>
    let attempted := st.urlsAttempted + 1
    let (db1, nlId) := ingestOne st.db source url (env.sid url)
      (env.content url) (env.parse source) crawlNow
    let stats1 := { st.stats with totalIngested := st.stats.totalIngested + 1 }
    let db2 := dedupeAndUpsertCanonical db1 nlId
    let createdNewObserved := false
    let stats2 :=
      if createdNewObserved then
        { stats1 with totalCanonicalAdded := stats1.totalCanonicalAdded + 1 }
      else stats1
    let st' : CrawlState := ⟨db2, stats2, attempted⟩
    if target ≤ stats2.totalCanonicalAdded + stats2.startingCanonicalCount then st'
    else ingestBatch env source target st' rest

/-- One source inside an outer-loop iteration: discovery, the new-URL
filter, and a bounded batch.  Once the URL budget is exhausted the
source loop's `break` makes the remaining sources no-ops, which the
leading guard reproduces. -/
def processSource (env : CrawlerEnv) (loopIdx target maxUrls batchSize : Nat)
    (st : CrawlState) (source : String) : CrawlState :=
  if maxUrls ≤ st.urlsAttempted then st
  else
    let links := env.listingLinks loopIdx source
    let stats1 := { st.stats with totalDiscovered := st.stats.totalDiscovered + links.length }
    let newUrls := filterNewUrls st.db links source
    let stats2 := { stats1 with totalNewUrls := stats1.totalNewUrls + newUrls.length }
    if newUrls.isEmpty then { st with stats := stats2 }
    else
      let batch := newUrls.take (min batchSize (maxUrls - st.urlsAttempted))
      ingestBatch env source target { st with stats := stats2 } batch

/-- `loop++` at the top of an iteration, recorded in the model-only
`loopsRun` observation (it is also the 1-based index handed to
discovery). -/
def bumpLoop (st : CrawlState) : CrawlState :=
  { st with stats := { st.stats with loopsRun := st.stats.loopsRun + 1 } }

/-- The body of one outer-loop iteration: every configured source in
order. -/
def crawlBody (env : CrawlerEnv) (sources : List String)
    (target maxUrls batchSize : Nat) (st : CrawlState) : CrawlState :=
  sources.foldl (processSource env st.stats.loopsRun target maxUrls batchSize) st

def MAX_LOOPS : Nat := 10

/-- `while (loop < MAX_LOOPS && totalUrlsAttempted < maxUrlsPerRun)`:
the remaining iteration allowance is the fuel.  Each iteration breaks
when the canonical count reached the target, runs the body, then breaks
when the cumulative `totalNewUrls` is still zero. -/
def crawlLoops (env : CrawlerEnv) (sources : List String)
    (target maxUrls batchSize : Nat) : Nat → CrawlState → CrawlState
  | 0, st => st
  | fuel + 1, st =>
    if maxUrls ≤ st.urlsAttempted then st
    else
      let st0 := bumpLoop st
      if target ≤ st0.db.units.length then st0
      else
        let st1 := crawlBody env sources target maxUrls batchSize st0
        if st1.stats.totalNewUrls == 0 then st1
        else crawlLoops env sources target maxUrls batchSize fuel st1

structure RegistryResult where
  db : DB
  stats : RegistryStats
  deriving Repr

/-- `runRegistryCrawler`: early return at target; otherwise up to
`MAX_LOOPS` discovery/ingest iterations, then one freshness pass and the
final counters. -/
def runRegistryCrawler (env : CrawlerEnv) (db0 : DB) (sources : List String)
    (targetCanonicalCount maxUrlsPerRun batchSize : Nat) : RegistryResult :=
  let starting := db0.units.length
  if targetCanonicalCount ≤ starting then
    ⟨db0, { startingCanonicalCount := starting, endingCanonicalCount := starting }⟩
  else
    let stF := crawlLoops env sources targetCanonicalCount maxUrlsPerRun batchSize
      MAX_LOOPS ⟨db0, { startingCanonicalCount := starting }, 0⟩
    let dbF := { stF.db with units := (updateFreshness crawlNow stF.db.units).1 }
    ⟨dbF, { stF.stats with endingCanonicalCount := dbF.units.length }⟩

/-! ## Helper lemmas -/

theorem freshness_pointwise (now : Int) (u : CanonicalUnit) :
    (fun v => if freshCondStale now v then { v with activeState := .stale } else v)
      ((fun v => if freshCondUnknown now v then { v with activeState := .unknown } else v)
        ((fun v => if freshCondActive now v then { v with activeState := .active } else v) u))
    = { u with activeState := specFreshState now u.lastSeenAt } := by
  obtain ⟨i, ca, cu, nb, bo, la, lo, bd, ba, brg, brn, bf, st, ls⟩ := u
  cases st <;>
    simp only [freshCondActive, freshCondUnknown, freshCondStale, specFreshState, dayMs,
      Bool.and_eq_true, decide_eq_true_eq, ne_eq] <;>
    split_ifs <;>
    simp_all [CanonicalUnit.mk.injEq] <;>
    omega

theorem freshCond_false_of_spec (now : Int) (u : CanonicalUnit)
    (h : u.activeState = specFreshState now u.lastSeenAt) :
    freshCondActive now u = false ∧ freshCondUnknown now u = false ∧
    freshCondStale now u = false := by
  obtain ⟨i, ca, cu, nb, bo, la, lo, bd, ba, brg, brn, bf, st, ls⟩ := u
  simp only [specFreshState, dayMs] at h
  cases st <;>
    simp only [freshCondActive, freshCondUnknown, freshCondStale, dayMs,
      Bool.and_eq_false_iff, decide_eq_false_iff_not, ne_eq] <;>
    split_ifs at h <;>
    simp_all <;>
    omega

theorem updateFreshness_eq_map (now : Int) (units : List CanonicalUnit) :
    (updateFreshness now units).1 =
      units.map fun u => { u with activeState := specFreshState now u.lastSeenAt } := by
  unfold updateFreshness updateManyState
  simp only [List.map_map]
  exact List.map_congr_left fun u _ => freshness_pointwise now u

theorem updateFreshness_counts_zero (now : Int) (l : List CanonicalUnit)
    (h : ∀ u ∈ l, u.activeState = specFreshState now u.lastSeenAt) :
    (updateFreshness now l).2 = (0, 0, 0) := by
  have hA : ∀ u ∈ l, freshCondActive now u = false :=
    fun u hu => (freshCond_false_of_spec now u (h u hu)).1
  have hU : ∀ u ∈ l, freshCondUnknown now u = false :=
    fun u hu => (freshCond_false_of_spec now u (h u hu)).2.1
  have hS : ∀ u ∈ l, freshCondStale now u = false :=
    fun u hu => (freshCond_false_of_spec now u (h u hu)).2.2
  have m1 : (l.map fun u =>
      if freshCondActive now u then { u with activeState := ActiveState.active } else u) = l := by
    have := List.map_congr_left (l := l)
      (f := fun u =>
        if freshCondActive now u then { u with activeState := ActiveState.active } else u)
      (g := id) (fun u hu => by simp [hA u hu])
    simpa using this
  have m2 : (l.map fun u =>
      if freshCondUnknown now u then { u with activeState := ActiveState.unknown } else u) = l := by
    have := List.map_congr_left (l := l)
      (f := fun u =>
        if freshCondUnknown now u then { u with activeState := ActiveState.unknown } else u)
      (g := id) (fun u hu => by simp [hU u hu])
    simpa using this
  have f1 : l.filter (freshCondActive now) = [] :=
    List.filter_eq_nil_iff.2 fun u hu => by simp [hA u hu]
  have f2 : l.filter (freshCondUnknown now) = [] :=
    List.filter_eq_nil_iff.2 fun u hu => by simp [hU u hu]
  have f3 : l.filter (freshCondStale now) = [] :=
    List.filter_eq_nil_iff.2 fun u hu => by simp [hS u hu]
  unfold updateFreshness updateManyState
  simp only [m1, m2, f1, f2, f3, List.length_nil]

theorem fetchGo_ok (url : String) (f : Nat → AttemptOutcome) (mr : Nat) :
    ∀ (k rem i : Nat) (le : Option String) (st : Int) (c fu : String),
      (∀ t, t < k → (f (i + t)).isFailure = true) →
      k < rem → f (i + k) = .success st c fu →
      fetchGo url f mr rem i le = .ok ⟨st, c, if fu == "" then url else fu⟩ := by
  intro k
  induction k with
  | zero =>
    intro rem i le st c fu _ hrem hk
    match rem, hrem with
    | rem + 1, _ =>
      simp only [fetchGo]
      rw [show i + 0 = i from rfl] at hk
      rw [hk]
  | succ k ih =>
    intro rem i le st c fu hfail hrem hk
    match rem, hrem with
    | rem + 1, hrem =>
      have h0 : (f i).isFailure = true := by
        have := hfail 0 (Nat.succ_pos k)
        simpa using this
      simp only [fetchGo]
      cases hf : f i with
      | success st' c' fu' => rw [hf] at h0; simp [AttemptOutcome.isFailure] at h0
      | failure m =>
        exact ih rem (i + 1) (some m) st c fu
          (fun t ht => by
            have := hfail (t + 1) (by omega)
            simpa [Nat.add_assoc, Nat.add_comm 1 t] using this)
          (by omega)
          (by rw [← hk]; congr 1; omega)

theorem fetchGo_err (url : String) (f : Nat → AttemptOutcome) (mr : Nat) :
    ∀ (rem i : Nat) (le : Option String) (m : String),
      (∀ t, t < rem → (f (i + t)).isFailure = true) →
      0 < rem → f (i + rem - 1) = .failure m →
      fetchGo url f mr rem i le = .error (allFailedMsg url mr m) := by
  intro rem
  induction rem with
  | zero => intro i le m _ h0; omega
  | succ rem ih =>
    intro i le m hfail _ hlast
    rcases Nat.eq_zero_or_pos rem with hz | hp
    · subst hz
      simp only [fetchGo]
      have : i + 1 - 1 = i := by omega
      rw [this] at hlast
      rw [hlast]
      simp [fetchGo]
    · have h0 : (f i).isFailure = true := by simpa using hfail 0 (by omega)
      simp only [fetchGo]
      cases hf : f i with
      | success st' c' fu' => rw [hf] at h0; simp [AttemptOutcome.isFailure] at h0
      | failure m0 =>
        exact ih (i + 1) (some m0) m
          (fun t ht => by
            have := hfail (t + 1) (by omega)
            simpa [Nat.add_assoc, Nat.add_comm 1 t] using this)
          hp
          (by rw [← hlast]; congr 1; omega)

theorem detect_units (db : DB) (cu : Nat) (l : Listing) :
    (detectAndLogChanges db cu l).units = db.units := by
  unfold detectAndLogChanges
  split <;> rfl

theorem detect_postings (db : DB) (cu : Nat) (l : Listing) :
    (detectAndLogChanges db cu l).postings = db.postings := by
  unfold detectAndLogChanges
  split <;> rfl

theorem find?_map_pres {α : Type} (p : α → Bool) (g : α → α)
    (hp : ∀ x, p (g x) = p x) (l : List α) :
    (l.map g).find? p = (l.find? p).map g := by
  induction l with
  | nil => rfl
  | cons a l ih =>
    by_cases h : p a
    · simp [List.find?_cons, hp a, h]
    · simp only [List.map_cons, List.find?_cons]
      rw [hp a]
      simp only [Bool.not_eq_true] at h
      rw [h]
      exact ih

theorem bestStep_isSome_of_ge (listing : Listing) (na : Option String)
    (bu : Option GeoBucket) (acc : Option (Nat × Nat)) (c : CanonicalUnit)
    (h : 60 ≤ scoreMatch listing c na bu) :
    (bestStep listing na bu acc c).isSome = true := by
  unfold bestStep
  cases acc with
  | none => simp [h]
  | some pr =>
    obtain ⟨i, s⟩ := pr
    by_cases hs : s < scoreMatch listing c na bu <;> simp [h, hs]

theorem bestStep_isSome_mono (listing : Listing) (na : Option String)
    (bu : Option GeoBucket) (acc : Option (Nat × Nat)) (c : CanonicalUnit)
    (h : acc.isSome = true) :
    (bestStep listing na bu acc c).isSome = true := by
  cases acc with
  | none => simp at h
  | some pr =>
    unfold bestStep
    dsimp only
    split
    · rfl
    · exact h

theorem foldl_bestStep_isSome (listing : Listing) (na : Option String)
    (bu : Option GeoBucket) :
    ∀ (l : List CanonicalUnit) (acc : Option (Nat × Nat)), acc.isSome = true →
      (l.foldl (bestStep listing na bu) acc).isSome = true := by
  intro l
  induction l with
  | nil => intro acc h; exact h
  | cons c l ih =>
    intro acc h
    exact ih _ (bestStep_isSome_mono listing na bu acc c h)

theorem foldl_bestStep_isSome_of_mem (listing : Listing) (na : Option String)
    (bu : Option GeoBucket) :
    ∀ (l : List CanonicalUnit) (acc : Option (Nat × Nat)) (c : CanonicalUnit),
      c ∈ l → 60 ≤ scoreMatch listing c na bu →
      (l.foldl (bestStep listing na bu) acc).isSome = true := by
  intro l
  induction l with
  | nil => intro acc c hc; exact absurd hc (List.not_mem_nil c)
  | cons a l ih =>
    intro acc c hc hscore
    rcases List.mem_cons.1 hc with rfl | hmem
    · exact foldl_bestStep_isSome listing na bu l _
        (bestStep_isSome_of_ge listing na bu acc c hscore)
    · exact ih _ c hmem hscore

theorem foldl_bestStep_score (listing : Listing) (na : Option String)
    (bu : Option GeoBucket) :
    ∀ (l : List CanonicalUnit) (acc : Option (Nat × Nat)) (i s : Nat),
      l.foldl (bestStep listing na bu) acc = some (i, s) →
      acc = some (i, s) ∨ 60 ≤ s := by
  intro l
  induction l with
  | nil => intro acc i s h; exact Or.inl h
  | cons a l ih =>
    intro acc i s h
    rcases ih _ i s h with hstep | hge
    · unfold bestStep at hstep
      dsimp only at hstep
      split at hstep
      · rename_i hcond
        simp only [Bool.and_eq_true, decide_eq_true_eq] at hcond
        injection hstep with h1
        injection h1 with ha hb
        exact Or.inr (hb ▸ hcond.1)
      · exact Or.inl hstep
    · exact Or.inr hge

theorem upsertPosting_mem (ps : List UnitPosting) (cu nl s : Nat) :
    ∃ p ∈ upsertPosting ps cu nl s,
      p.canonicalUnitId = cu ∧ p.normalizedListingId = nl ∧ p.matchScore = s := by
  unfold upsertPosting
  split
  · rename_i hany
    obtain ⟨x, hx, hpx⟩ := List.any_eq_true.1 hany
    refine ⟨{ x with matchScore := s }, ?_, ?_, ?_, rfl⟩
    · refine List.mem_map.2 ⟨x, hx, ?_⟩
      rw [if_pos hpx]
    · simp only [Bool.and_eq_true, beq_iff_eq] at hpx
      exact hpx.1
    · simp only [Bool.and_eq_true, beq_iff_eq] at hpx
      exact hpx.2
  · exact ⟨⟨cu, nl, s⟩, List.mem_append_right _ (List.mem_singleton.2 rfl), rfl, rfl, rfl⟩

theorem latestListing_mem : ∀ (l : List Listing) (x : Listing),
    latestListing l = some x → x ∈ l := by
  intro l
  induction l with
  | nil => intro x h; simp [latestListing] at h
  | cons a l ih =>
    intro x h
    unfold latestListing at h
    split at h
    · injection h with h
      exact h ▸ List.mem_cons_self a l
    · rename_i m hll
      split at h
      · injection h with h
        exact List.mem_cons_of_mem a (ih x (h ▸ hll))
      · injection h with h
        exact h ▸ List.mem_cons_self a l

theorem attachedListings_sub (db : DB) (cuId : Nat) (l : Listing)
    (h : l ∈ attachedListings db cuId) : l ∈ db.listings := by
  unfold attachedListings at h
  obtain ⟨p, _, hfind⟩ := List.mem_filterMap.1 h
  exact List.mem_of_find?_eq_some hfind

/-! ## Claims -/

/-- **C4** The spec claims `normalizeAddress("350 East 52nd Street, Apt 2G")`
and `normalizeAddress("350 E 52nd St #2G")` return the same canonical
street string.  Evaluating the source's normalization shows they differ:
the substitution list maps `\blast\b` (not "east") to "e", so "east" is
never abbreviated, and the unit-suffix pattern `\b(...|#)...$` cannot
match a "#" that follows a space (no word boundary between two non-word
characters), so "#2G" is not stripped. -/
theorem c4_normalizeAddress_diverges :
    normalizeAddress "350 East 52nd Street, Apt 2G" = "350 east 52nd st" ∧
    normalizeAddress "350 E 52nd St #2G" = "350 e 52nd st #2g" ∧
    normalizeAddress "350 East 52nd Street, Apt 2G" ≠
      normalizeAddress "350 E 52nd St #2G" :=
  ⟨by decide, by decide, by decide⟩

/-- **C6** After `updateFreshness()` runs, every canonical unit's
`activeState` is the pure function of `lastSeenAt` relative to now given
by the three thresholds (active ≤ 7 days, unknown 8–14 days, stale
beyond 14 days; only `activeState` changes); a unit last seen 20 days ago
classifies as stale; and an immediate second run affects zero rows in
each of the three guarded bulk updates. -/
theorem c6_updateFreshness_reclassifies (now : Int) (units : List CanonicalUnit) :
    (updateFreshness now units).1 =
      (units.map fun u => { u with activeState := specFreshState now u.lastSeenAt }) ∧
    (updateFreshness now (updateFreshness now units).1).2 = (0, 0, 0) ∧
    specFreshState now (now - 20 * dayMs) = ActiveState.stale := by
  refine ⟨updateFreshness_eq_map now units, ?_, ?_⟩
  · apply updateFreshness_counts_zero
    rw [updateFreshness_eq_map]
    intro u hu
    rw [List.mem_map] at hu
    obtain ⟨v, _, rfl⟩ := hu
    rfl
  · unfold specFreshState
    rw [if_neg (by unfold dayMs; omega), if_neg (by unfold dayMs; omega)]

/-- **C10** `fetchWithPolicy` treats every completed response as success:
if attempt `k ≤ maxRetries` is the first attempt whose underlying fetch
does not throw, the call resolves with that attempt's
`{httpStatus, content, finalUrl}` — whatever the status code — and in
particular a first-attempt response returns with no retry; only thrown
fetches are retried, and when all `maxRetries + 1` attempts throw, the
call throws an error naming the URL, the attempt count and the last
underlying message. -/
theorem c10_fetchWithPolicy_behavior (url : String) (f : Nat → AttemptOutcome)
    (maxRetries : Nat) :
    (∀ k st c fu, k ≤ maxRetries → (∀ t, t < k → (f t).isFailure = true) →
      f k = .success st c fu →
      fetchWithPolicy url f maxRetries = .ok ⟨st, c, if fu == "" then url else fu⟩) ∧
    (∀ m, (∀ t, t ≤ maxRetries → (f t).isFailure = true) →
      f maxRetries = .failure m →
      fetchWithPolicy url f maxRetries = .error (allFailedMsg url maxRetries m)) := by
  constructor
  · intro k st c fu hk hfail hs
    exact fetchGo_ok url f maxRetries k (maxRetries + 1) 0 none st c fu
      (fun t ht => by simpa using hfail t ht) (by omega) (by simpa using hs)
  · intro m hfail hm
    exact fetchGo_err url f maxRetries (maxRetries + 1) 0 none m
      (fun t ht => by simpa using hfail t (by omega)) (by omega) (by simpa using hm)

/-- First attempt completes with HTTP 404: returned as-is, and an
all-throws run surfaces the aggregate error. -/
def c10AttemptsA : Nat → AttemptOutcome := fun i =>
  if i == 0 then .success 404 "not found" "" else .failure "net down"

def c10AttemptsB : Nat → AttemptOutcome := fun _ => .failure "ECONNRESET"

theorem c10_witness :
    fetchWithPolicy "https://x.test/a" c10AttemptsA 3 =
      .ok ⟨404, "not found", "https://x.test/a"⟩ ∧
    fetchWithPolicy "https://x.test/a" c10AttemptsB 3 =
      .error (allFailedMsg "https://x.test/a" 3 "ECONNRESET") := by
  constructor
  · have := (c10_fetchWithPolicy_behavior "https://x.test/a" c10AttemptsA 3).1
      0 404 "not found" "" (by omega) (fun t ht => absurd ht (by omega)) rfl
    simpa using this
  · exact (c10_fetchWithPolicy_behavior "https://x.test/a" c10AttemptsB 3).2
      "ECONNRESET" (fun t _ => rfl) rfl

/-- An address-only listing against a unit with the identical normalized
address. -/
def c1Unit : CanonicalUnit := { id := 0, canonicalAddress := some "123 main st", lastSeenAt := 0 }

def c1Listing : Listing :=
  { id := 0
    rawListingId := 0
    source := "s"
    sourceUrl := "u"
    title := "t"
    address := some "123 Main St"
    firstSeenAt := 0
    lastSeenAt := 0 }

def c1DB : DB := { units := [c1Unit], nextUnitId := 1 }

/-- **C1** (counterexample) A listing whose normalized address exactly
equals an existing unit's canonical address scores only 40 from the
address term — below the 60 acceptance threshold — so with no other
matching term `dedupeAndUpsertCanonical` creates a second CanonicalUnit
instead of attaching. -/
theorem c1_counterexample :
    scoreMatch c1Listing c1Unit (normAddrOf c1Listing)
      (geoBucket c1Listing.lat c1Listing.lng) = 40 ∧
    normAddrOf c1Listing = c1Unit.canonicalAddress ∧
    (dedupeListing c1DB c1Listing).units.length = 2 :=
  ⟨by decide, by decide, by decide⟩

/-- **C1** (amended) Exact normalized-address equality contributes 40
points, not 60; the listing attaches to an existing unit rather than
creating a new one when further terms lift the total to the 60
threshold.  In particular, when additionally both unit labels are
present and case-insensitively equal (+30), the score reaches at least
60 and the listing attaches: the canonical-unit table does not grow and
a UnitPosting for the listing with score ≥ 60 is upserted. -/
theorem c1_address_plus_unit_attaches (db : DB) (listing : Listing)
    (u : CanonicalUnit) (a lu cu : String)
    (hu : u ∈ db.units)
    (ha : listing.address = some a) (hane : a ≠ "")
    (hnne : normalizeAddress a ≠ "")
    (haddr : u.canonicalAddress = some (normalizeAddress a))
    (hlu : listing.unit = some lu) (hcu : u.canonicalUnit = some cu)
    (hlune : lu ≠ "") (hcune : cu ≠ "")
    (heq : lowerStr lu = lowerStr cu) :
    60 ≤ scoreMatch listing u (normAddrOf listing) (geoBucket listing.lat listing.lng) ∧
    (dedupeListing db listing).units.length = db.units.length ∧
    ∃ p ∈ (dedupeListing db listing).postings,
      p.normalizedListingId = listing.id ∧ 60 ≤ p.matchScore := by
  have hna : normAddrOf listing = some (normalizeAddress a) := by
    unfold normAddrOf
    rw [ha]
    simp [hane]
  have h1 : (strTruthy (normAddrOf listing) &&
      (u.canonicalAddress == normAddrOf listing)) = true := by
    rw [hna, haddr]
    simp [strTruthy, hnne]
  have h2 : (strTruthy listing.unit && strTruthy u.canonicalUnit &&
      (listing.unit.map lowerStr == u.canonicalUnit.map lowerStr)) = true := by
    rw [hlu, hcu]
    simp [strTruthy, hlune, hcune, heq]
  have hscore : 60 ≤ scoreMatch listing u (normAddrOf listing)
      (geoBucket listing.lat listing.lng) := by
    unfold scoreMatch
    dsimp only
    rw [h1, h2]
    simp only [if_true]
    omega
  refine ⟨hscore, ?_⟩
  have hcand : u ∈ findCandidates db.units (normAddrOf listing)
      (geoBucket listing.lat listing.lng) := by
    unfold findCandidates
    rw [if_neg (by rw [hna]; simp [strTruthy, hnne])]
    refine List.mem_filter.2 ⟨hu, ?_⟩
    unfold candidateCond
    rw [hna, haddr]
    simp [strTruthy, hnne]
  have hsome : (dedupeBest db listing).isSome = true := by
    unfold dedupeBest
    dsimp only
    exact foldl_bestStep_isSome_of_mem listing (normAddrOf listing)
      (geoBucket listing.lat listing.lng) _ none u hcand hscore
  rcases hbest : dedupeBest db listing with _ | pr
  · rw [hbest] at hsome
    simp at hsome
  · obtain ⟨bid, s⟩ := pr
    have hs60 : 60 ≤ s := by
      unfold dedupeBest at hbest
      dsimp only at hbest
      rcases foldl_bestStep_score listing _ _ _ none bid s hbest with h | h
      · exact absurd h (by simp)
      · exact h
    unfold dedupeListing
    rw [hbest]
    constructor
    · dsimp only
      rw [detect_units]
      unfold mapUnit
      simp [List.length_map]
    · dsimp only
      rw [detect_postings]
      obtain ⟨p, hp, hp1, hp2, hp3⟩ := upsertPosting_mem db.postings bid listing.id s
      exact ⟨p, hp, hp2, hp3 ▸ hs60⟩

def c1wUnit : CanonicalUnit :=
  { id := 4
    canonicalAddress := some "77 w 3rd st"
    canonicalUnit := some "5C"
    lastSeenAt := 0 }

def c1wListing : Listing :=
  { id := 9
    rawListingId := 0
    source := "s"
    sourceUrl := "u9"
    title := "t"
    address := some "77 West 3rd Street"
    unit := some "5c"
    firstSeenAt := 3
    lastSeenAt := 3 }

def c1wDB : DB := { units := [c1wUnit], nextUnitId := 5 }

theorem c1_witness :
    60 ≤ scoreMatch c1wListing c1wUnit (normAddrOf c1wListing)
      (geoBucket c1wListing.lat c1wListing.lng) ∧
    (dedupeListing c1wDB c1wListing).units.length = c1wDB.units.length ∧
    ∃ p ∈ (dedupeListing c1wDB c1wListing).postings,
      p.normalizedListingId = c1wListing.id ∧ 60 ≤ p.matchScore :=
  c1_address_plus_unit_attaches c1wDB c1wListing c1wUnit
    "77 West 3rd Street" "5c" "5C"
    (by decide) (by decide) (by decide) (by decide) (by decide)
    (by decide) (by decide) (by decide) (by decide) (by decide)

/-- A unit last seen at time 10 and an attaching listing last seen at
time 5 (matching on address and unit label, score 70). -/
def c5Unit : CanonicalUnit :=
  { id := 0
    canonicalAddress := some "9 elm st"
    canonicalUnit := some "1A"
    lastSeenAt := 10 }

def c5Listing : Listing :=
  { id := 0
    rawListingId := 0
    source := "s"
    sourceUrl := "u"
    title := "t"
    address := some "9 Elm St"
    unit := some "1a"
    firstSeenAt := 5
    lastSeenAt := 5 }

def c5DB : DB := { units := [c5Unit], nextUnitId := 1 }

/-- **C5** (counterexample) The attach path assigns
`lastSeenAt := listing.lastSeenAt` unconditionally: attaching a listing
whose `lastSeenAt` (5) is older than the unit's (10) moves the unit's
`lastSeenAt` backward, refuting the unconditional monotonicity claim. -/
theorem c5_counterexample :
    c5Unit.lastSeenAt = 10 ∧ c5Listing.lastSeenAt = 5 ∧
    ((dedupeListing c5DB c5Listing).units.map fun u => u.lastSeenAt) = [5] ∧
    ¬ lastSeenMonotone c5DB (dedupeListing c5DB c5Listing) := by
  refine ⟨by decide, by decide, by decide, ?_⟩
  unfold lastSeenMonotone
  decide

/-- **C5** (amended) Both update paths set the unit's `lastSeenAt` to an
attached listing's `lastSeenAt`, so they preserve monotonicity exactly
when that listing is at least as fresh as the unit — which holds in the
normal pipeline flow, where dedupe runs right after ingest has stamped
the listing's `lastSeenAt` with the current time: under that freshness
assumption (each stored or attaching listing at least as fresh as every
unit, unit ids unique and below the id counter), the attach path of
`dedupeAndUpsertCanonical` and `updateCanonicalBestFields` never move
any unit's `lastSeenAt` backward. -/
theorem c5_lastSeen_monotone (db : DB) (listing : Listing)
    (hnodup : (db.units.map fun u => u.id).Nodup)
    (hfresh : ∀ u ∈ db.units, u.id < db.nextUnitId)
    (hL : ∀ u ∈ db.units, u.lastSeenAt ≤ listing.lastSeenAt)
    (hAll : ∀ u ∈ db.units, ∀ l ∈ db.listings, u.lastSeenAt ≤ l.lastSeenAt) :
    lastSeenMonotone db (dedupeListing db listing) ∧
    ∀ cuId, lastSeenMonotone db (updateCanonicalBestFields db cuId) := by
  have hinj : ∀ x ∈ db.units, ∀ y ∈ db.units, x.id = y.id → x = y := by
    intro x hx y hy hxy
    exact List.inj_on_of_nodup_map hnodup hx hy hxy
  constructor
  · intro u hu u' hu' hid
    unfold dedupeListing at hu'
    rcases hbest : dedupeBest db listing with _ | pr
    · rw [hbest] at hu'
      dsimp only at hu'
      rcases List.mem_append.1 hu' with hin | hnew
      · rw [hinj u hu u' hin hid]
      · have h1 : u'.id = db.nextUnitId := by
          rw [List.mem_singleton.1 hnew]
        exact absurd (hid ▸ hfresh u hu) (by rw [h1]; omega)
    · obtain ⟨bid, s⟩ := pr
      rw [hbest] at hu'
      dsimp only at hu'
      rw [detect_units] at hu'
      unfold mapUnit at hu'
      obtain ⟨u0, hu0, hu0'⟩ := List.mem_map.1 hu'
      by_cases h0 : (u0.id == bid) = true
      · rw [if_pos h0] at hu0'
        have hls : u'.lastSeenAt = listing.lastSeenAt := by rw [← hu0']
        rw [hls]
        exact hL u hu
      · rw [if_neg (by simpa using h0)] at hu0'
        rw [hinj u hu u0 hu0 (hu0' ▸ hid)]
        exact le_of_eq (by rw [hu0'])
  · intro cuId u hu u' hu' hid
    unfold updateCanonicalBestFields at hu'
    rcases hll : latestListing (attachedListings db cuId) with _ | l0
    · rw [hll] at hu'
      dsimp only at hu'
      rw [hinj u hu u' hu' hid]
    · rw [hll] at hu'
      dsimp only at hu'
      unfold mapUnit at hu'
      obtain ⟨u0, hu0, hu0'⟩ := List.mem_map.1 hu'
      by_cases h0 : (u0.id == cuId) = true
      · rw [if_pos h0] at hu0'
        have hl0 : l0 ∈ db.listings :=
          attachedListings_sub db cuId l0 (latestListing_mem _ l0 hll)
        have hls : u'.lastSeenAt = l0.lastSeenAt := by rw [← hu0']
        rw [hls]
        exact hAll u hu l0 hl0
      · rw [if_neg (by simpa using h0)] at hu0'
        rw [hinj u hu u0 hu0 (hu0' ▸ hid)]
        exact le_of_eq (by rw [hu0'])

def c5wUnit : CanonicalUnit :=
  { id := 0
    canonicalAddress := some "9 elm st"
    canonicalUnit := some "1A"
    lastSeenAt := 0 }

def c5wStored : Listing :=
  { id := 1
    rawListingId := 0
    source := "s"
    sourceUrl := "u1"
    title := "t"
    firstSeenAt := 7
    lastSeenAt := 7 }

def c5wListing : Listing :=
  { id := 2
    rawListingId := 0
    source := "s"
    sourceUrl := "u2"
    title := "t"
    address := some "9 Elm St"
    unit := some "1a"
    firstSeenAt := 5
    lastSeenAt := 5 }

def c5wDB : DB :=
  { units := [c5wUnit]
    listings := [c5wStored]
    postings := [⟨0, 1, 100⟩]
    nextUnitId := 1 }

theorem c5_witness :
    lastSeenMonotone c5wDB (dedupeListing c5wDB c5wListing) ∧
    lastSeenMonotone c5wDB (updateCanonicalBestFields c5wDB 0) :=
  ⟨(c5_lastSeen_monotone c5wDB c5wListing (by decide) (by decide) (by decide)
      (by decide)).1,
   (c5_lastSeen_monotone c5wDB c5wListing (by decide) (by decide) (by decide)
      (by decide)).2 0⟩

theorem findUnit_mapUnit (units : List CanonicalUnit) (cuId : Nat)
    (f : CanonicalUnit → CanonicalUnit) (hf : ∀ v, (f v).id = v.id) :
    findUnit (mapUnit units cuId f) cuId = (findUnit units cuId).map f := by
  unfold findUnit mapUnit
  rw [find?_map_pres (fun v => v.id == cuId) (fun v => if v.id == cuId then f v else v)
    (fun v => by by_cases h : (v.id == cuId) = true <;> simp [h, hf v]) units]
  cases hfv : List.find? (fun v => v.id == cuId) units with
  | none => simp
  | some v =>
    have hp := List.find?_some hfv
    simp only [beq_iff_eq] at hp
    simp [hp]

/-- **C8** When a listing with a non-absent gross rent attaches to a
unit whose current best gross rent is non-absent and different, exactly
one `price_change` ChangeLog row is appended, carrying the old and new
gross rents; the old value is read before anything is overwritten — the
attach path leaves `bestRentGross` untouched, and the later best-fields
refresh (`updateCanonicalBestFields`, run afterwards by `dedupeAll`) is
what overwrites it from the freshest attached listing. -/
theorem c8_price_change (db : DB) (listing : Listing) (u : CanonicalUnit)
    (oldRent newRent : ℚ) (cuId s : Nat)
    (hbest : dedupeBest db listing = some (cuId, s))
    (hfind : findUnit db.units cuId = some u)
    (hl : listing.rentGross = some newRent)
    (hc : u.bestRentGross = some oldRent)
    (hne : newRent ≠ oldRent) :
    ((dedupeListing db listing).changeLog.filter fun e => e.kind == ChangeKind.price_change)
      = (db.changeLog.filter fun e => e.kind == ChangeKind.price_change)
        ++ [⟨cuId, some listing.id, .price_change, .price oldRent newRent⟩] ∧
    ((findUnit (dedupeListing db listing).units cuId).map fun v => v.bestRentGross)
      = some (some oldRent) ∧
    ∀ l0, latestListing (attachedListings (dedupeListing db listing) cuId) = some l0 →
      ((findUnit (updateCanonicalBestFields (dedupeListing db listing) cuId).units cuId).map
        fun v => v.bestRentGross) = some l0.rentGross := by
  have hlog : (dedupeListing db listing).changeLog =
      (detectAndLogChanges { db with postings := upsertPosting db.postings cuId listing.id s }
        cuId listing).changeLog := by
    unfold dedupeListing
    rw [hbest]
  have hunits : (dedupeListing db listing).units =
      mapUnit db.units cuId (fun v => { v with lastSeenAt := listing.lastSeenAt }) := by
    unfold dedupeListing
    rw [hbest]
    dsimp only
    rw [detect_units]
  constructor
  · rw [hlog]
    unfold detectAndLogChanges
    rw [show findUnit db.units cuId = some u from hfind]
    dsimp only
    rw [hl, hc]
    dsimp only
    rw [if_pos hne]
    rcases hbf : listing.brokerFee with _ | lb <;> rcases hcf : u.brokerFee with _ | cb
    · simp [List.filter_append]
    · simp [List.filter_append]
    · simp [List.filter_append]
    · dsimp only
      by_cases hfe : lb ≠ cb
      · rw [if_pos hfe]
        simp [List.filter_append]
      · rw [if_neg hfe]
        simp [List.filter_append]
  constructor
  · rw [hunits]
    rw [findUnit_mapUnit db.units cuId
      (fun v => { v with lastSeenAt := listing.lastSeenAt }) (fun v => rfl)]
    rw [hfind]
    simp [hc]
  · intro l0 hl0
    unfold updateCanonicalBestFields
    rw [hl0]
    dsimp only
    rw [findUnit_mapUnit (dedupeListing db listing).units cuId
      (fun v =>
        { v with
          bestRentGross := l0.rentGross
          bestRentNetEffective := l0.rentNetEffective
          brokerFee := l0.brokerFee
          neighborhood := l0.neighborhood
          borough := l0.borough
          lat := l0.lat
          lng := l0.lng
          bedrooms := l0.bedrooms
          bathrooms := l0.bathrooms
          lastSeenAt := l0.lastSeenAt }) (fun v => rfl)]
    rw [hunits, findUnit_mapUnit db.units cuId
      (fun v => { v with lastSeenAt := listing.lastSeenAt }) (fun v => rfl), hfind]
    simp

/-- The spec's worked example: prior best gross rent 3200, incoming
listing rent 3500. -/
def c8wUnit : CanonicalUnit :=
  { id := 0
    canonicalAddress := some "123 main st"
    canonicalUnit := some "2G"
    bestRentGross := some 3200
    lastSeenAt := 0 }

def c8wListing : Listing :=
  { id := 7
    rawListingId := 0
    source := "s"
    sourceUrl := "u"
    title := "t"
    address := some "123 Main St"
    unit := some "2g"
    rentGross := some 3500
    firstSeenAt := 1
    lastSeenAt := 1 }

def c8wDB : DB := { units := [c8wUnit], listings := [c8wListing], nextUnitId := 1 }

theorem c8_witness :
    ((dedupeListing c8wDB c8wListing).changeLog.filter
        fun e => e.kind == ChangeKind.price_change)
      = [⟨0, some 7, .price_change, .price 3200 3500⟩] ∧
    ((findUnit (dedupeListing c8wDB c8wListing).units 0).map fun v => v.bestRentGross)
      = some (some 3200) ∧
    ((findUnit (updateCanonicalBestFields (dedupeListing c8wDB c8wListing) 0).units 0).map
        fun v => v.bestRentGross) = some (some 3500) := by
  have h := c8_price_change c8wDB c8wListing c8wUnit 3200 3500 0 70
    (by decide) (by decide) (by decide) (by decide) (by decide)
  refine ⟨?_, h.2.1, ?_⟩
  · have h1 := h.1
    simpa using h1
  · have h3 := h.2.2 c8wListing (by decide)
    simpa [c8wListing] using h3



theorem filter_map_pres {α : Type} (p : α → Bool) (g : α → α)
    (hp : ∀ x, p (g x) = p x) (l : List α) :
    (l.map g).filter p = (l.filter p).map g := by
  induction l with
  | nil => rfl
  | cons x l ih =>
    by_cases h : p x
    · simp only [List.map_cons, List.filter_cons, hp x, h, if_true]
      rw [ih]
    · simp only [List.map_cons, List.filter_cons, hp x]
      simp only [Bool.not_eq_true] at h
      rw [h]
      exact ih

theorem ingest_update_shape (db' : DB) (a u : String) (sid : Option String)
    (fetched : FetchedContent) (parse : String → ParsedInput) (now : Int)
    (r0 : RawRow) (l0 : Listing)
    (hR : db'.raws.find? (rawKey a u) = some r0)
    (hN : db'.listings.find? (listingKey a u) = some l0) :
    (ingestOne db' a u sid fetched parse now).1.raws
      = (db'.raws.map fun r =>
          if rawKey a u r then
            { r with
              fetchedAt := now
              httpStatus := some fetched.httpStatus
              rawContent := some fetched.content
              parseVersion := parseVersionTag }
          else r).map
        (fun r => if r.id == r0.id then
          { r with extractedJson := some (parse fetched.content) } else r) ∧
    (ingestOne db' a u sid fetched parse now).1.listings
      = db'.listings.map fun l =>
          if listingKey a u l then applyParsed l r0.id (parse fetched.content) now else l := by
  unfold ingestOne
  rw [hR]
  dsimp only
  rw [hN]
  exact ⟨rfl, rfl⟩



/-- **C7** Running `ingestOne` twice on identical fetched content for the
same `(source, url)` leaves exactly one RawListing row and exactly one
NormalizedListing row with that key; the surviving NormalizedListing's
`firstSeenAt` is the first run's time and its `lastSeenAt` the second
run's. -/
theorem c7_ingest_idempotent (db : DB) (a u : String) (sid : Option String)
    (fetched : FetchedContent) (parse : String → ParsedInput) (t1 t2 : Int)
    (h1 : ∀ r ∈ db.raws, rawKey a u r = false)
    (h2 : ∀ l ∈ db.listings, listingKey a u l = false) :
    ((((ingestOne (ingestOne db a u sid fetched parse t1).1 a u sid fetched parse t2).1).raws.filter
        (rawKey a u)).length = 1) ∧
    ((((ingestOne (ingestOne db a u sid fetched parse t1).1 a u sid fetched parse t2).1).listings.filter
        (listingKey a u)).length = 1) ∧
    (∀ l ∈ ((ingestOne (ingestOne db a u sid fetched parse t1).1 a u sid fetched parse t2).1).listings,
      listingKey a u l = true → l.firstSeenAt = t1 ∧ l.lastSeenAt = t2) := by
  have hfR : db.raws.find? (rawKey a u) = none :=
    List.find?_eq_none.2 fun r hr => by simp [h1 r hr]
  have hfN : db.listings.find? (listingKey a u) = none :=
    List.find?_eq_none.2 fun l hl => by simp [h2 l hl]
  -- run 1 creates both rows
  have hrun1 : ingestOne db a u sid fetched parse t1 =
      ({ db with
         raws := (db.raws ++
           [({ id := db.nextRawId
               source := a
               sourceUrl := u
               sourceListingId := sid
               fetchedAt := t1
               httpStatus := some fetched.httpStatus
               rawContent := some fetched.content
               parseVersion := parseVersionTag } : RawRow)]).map
           (fun r => if r.id == db.nextRawId then
              { r with extractedJson := some (parse fetched.content) } else r)
         listings := db.listings ++
           [applyParsed
             { id := db.nextListingId
               rawListingId := db.nextRawId
               source := a
               sourceUrl := u
               title := (parse fetched.content).title
               firstSeenAt := t1
               lastSeenAt := t1 } db.nextRawId (parse fetched.content) t1]
         nextRawId := db.nextRawId + 1
         nextListingId := db.nextListingId + 1 }, db.nextListingId) := by
    unfold ingestOne
    rw [hfR]
    dsimp only
    rw [hfN]
  rw [hrun1]
  dsimp only
  -- names for the two created rows
  set newRaw : RawRow :=
    { id := db.nextRawId
      source := a
      sourceUrl := u
      sourceListingId := sid
      fetchedAt := t1
      httpStatus := some fetched.httpStatus
      rawContent := some fetched.content
      parseVersion := parseVersionTag } with hnewRaw
  set newL : Listing :=
    applyParsed
      { id := db.nextListingId
        rawListingId := db.nextRawId
        source := a
        sourceUrl := u
        title := (parse fetched.content).title
        firstSeenAt := t1
        lastSeenAt := t1 } db.nextRawId (parse fetched.content) t1 with hnewL
  set phi : RawRow → RawRow :=
    fun r => if r.id == db.nextRawId then
      { r with extractedJson := some (parse fetched.content) } else r with hphi
  have hphiKey : ∀ r, rawKey a u (phi r) = rawKey a u r := by
    intro r
    rw [hphi]
    by_cases h : (r.id == db.nextRawId) = true <;> simp [h, rawKey]
  have hkeyNewRaw : rawKey a u newRaw = true := by simp [rawKey, hnewRaw]
  have hkeyNewL : listingKey a u newL = true := by simp [listingKey, hnewL, applyParsed]
  have hfR2 : ((db.raws ++ [newRaw]).map phi).find? (rawKey a u) = some (phi newRaw) := by
    rw [find?_map_pres (rawKey a u) phi hphiKey]
    rw [List.find?_append, hfR]
    simp [hkeyNewRaw]
  have hfN2 : (db.listings ++ [newL]).find? (listingKey a u) = some newL := by
    rw [List.find?_append, hfN]
    simp [hkeyNewL]
  obtain ⟨hraws2, hlist2⟩ := ingest_update_shape
    { db with
      raws := (db.raws ++ [newRaw]).map phi
      listings := db.listings ++ [newL]
      nextRawId := db.nextRawId + 1
      nextListingId := db.nextListingId + 1 }
    a u sid fetched parse t2 (phi newRaw) newL hfR2 hfN2
  rw [hraws2, hlist2]
  dsimp only
  have hpsi1Key : ∀ r, rawKey a u
      ((fun r => if rawKey a u r then
        { r with
          fetchedAt := t2
          httpStatus := some fetched.httpStatus
          rawContent := some fetched.content
          parseVersion := parseVersionTag }
        else r) r) = rawKey a u r := by
    intro r
    dsimp only
    by_cases h : rawKey a u r = true
    · rw [if_pos h]
      rfl
    · rw [if_neg (by simpa using h)]
  have hpsi2Key : ∀ r, rawKey a u
      ((fun r => if r.id == (phi newRaw).id then
        { r with extractedJson := some (parse fetched.content) } else r) r) = rawKey a u r := by
    intro r
    dsimp only
    by_cases h : (r.id == (phi newRaw).id) = true
    · rw [if_pos h]
      rfl
    · rw [if_neg (by simpa using h)]
  refine ⟨?_, ?_, ?_⟩
  · rw [filter_map_pres _ _ hpsi2Key, filter_map_pres _ _ hpsi1Key, filter_map_pres _ _ hphiKey]
    rw [List.filter_append]
    rw [List.filter_eq_nil_iff.2 (fun r hr => by simp [h1 r hr])]
    simp [hkeyNewRaw]
  · have hchiKey : ∀ l, listingKey a u
        ((fun l => if listingKey a u l then
          applyParsed l (phi newRaw).id (parse fetched.content) t2 else l) l)
        = listingKey a u l := by
      intro l
      dsimp only
      by_cases h : listingKey a u l = true
      · rw [if_pos h]
        rfl
      · rw [if_neg (by simpa using h)]
    rw [filter_map_pres _ _ hchiKey]
    rw [List.filter_append]
    rw [List.filter_eq_nil_iff.2 (fun l hl => by simp [h2 l hl])]
    simp [hkeyNewL]
  · intro l hl hkey
    obtain ⟨l', hl', rfl⟩ := List.mem_map.1 hl
    rcases List.mem_append.1 hl' with hin | hone
    · have hk' := h2 l' hin
      rw [if_neg (by simp [hk'])] at hkey
      exact absurd hkey (by simp [hk'])
    · have heq : l' = newL := List.mem_singleton.1 hone
      subst heq
      rw [if_pos hkeyNewL] at hkey ⊢
      exact ⟨rfl, rfl⟩


theorem c7_witness :
    ((((ingestOne (ingestOne {} "s" "http://x" none ⟨200, "body"⟩
          (fun c => { title := c }) 50).1 "s" "http://x" none ⟨200, "body"⟩
          (fun c => { title := c }) 80).1).raws.filter (rawKey "s" "http://x")).length = 1) ∧
    ((((ingestOne (ingestOne {} "s" "http://x" none ⟨200, "body"⟩
          (fun c => { title := c }) 50).1 "s" "http://x" none ⟨200, "body"⟩
          (fun c => { title := c }) 80).1).listings.filter (listingKey "s" "http://x")).length = 1) ∧
    (∀ l ∈ (((ingestOne (ingestOne {} "s" "http://x" none ⟨200, "body"⟩
          (fun c => { title := c }) 50).1 "s" "http://x" none ⟨200, "body"⟩
          (fun c => { title := c }) 80).1).listings),
      listingKey "s" "http://x" l = true → l.firstSeenAt = 50 ∧ l.lastSeenAt = 80) :=
  c7_ingest_idempotent {} "s" "http://x" none ⟨200, "body"⟩ (fun c => { title := c }) 50 80
    (fun r hr => absurd hr (List.not_mem_nil r))
    (fun l hl => absurd hl (List.not_mem_nil l))

/-- Two discoverable URLs with distinct addresses; each ingest creates a
new canonical unit. -/
def c2Env : CrawlerEnv :=
  { listingLinks := fun _ _ => ["u1", "u2"]
    content := fun u => ⟨200, u⟩
    parse := fun _ c => { title := "t", address := some (c ++ " Main St") }
    sid := fun _ => none }

/-- **C2** `dedupeAndUpsertCanonical` is declared `Promise<void>` and
returns no value, while its caller in `runRegistryCrawler` reads
`result?.createdNew`; that optional chain is always `undefined`, so
`totalCanonicalAdded` is never incremented: a run that creates two
canonical units (ending count 2 from starting count 0) still reports
`totalCanonicalAdded = 0`. -/
theorem c2_createdNew_never_reported :
    (runRegistryCrawler c2Env {} ["s"] 100 2 30).stats.totalCanonicalAdded = 0 ∧
    (runRegistryCrawler c2Env {} ["s"] 100 2 30).stats.startingCanonicalCount = 0 ∧
    (runRegistryCrawler c2Env {} ["s"] 100 2 30).stats.endingCanonicalCount = 2 ∧
    (runRegistryCrawler c2Env {} ["s"] 100 2 30).stats.totalIngested = 2 :=
  ⟨by decide, by decide, by decide, by decide⟩

/-- Three discoverable URLs with distinct addresses against a target of
one canonical unit. -/
def c3Env : CrawlerEnv :=
  { listingLinks := fun _ _ => ["a1", "a2", "a3"]
    content := fun u => ⟨200, u⟩
    parse := fun _ c => { title := "t", address := some (c ++ " Oak St") }
    sid := fun _ => none }

/-- **C3** With `targetCanonicalCount = 1`, the first batch URL already
creates canonical unit number one, reaching the target; the mid-batch
stop `totalCanonicalAdded + startingCanonicalCount >= targetCanonicalCount`
should fire there, but `totalCanonicalAdded` is stuck at 0 (void return
of `dedupeAndUpsertCanonical`), so both remaining batch URLs are still
ingested and the run overshoots to three canonical units. -/
theorem c3_midbatch_stop_never_fires :
    (runRegistryCrawler c3Env {} ["s"] 1 100 30).stats.totalIngested = 3 ∧
    (runRegistryCrawler c3Env {} ["s"] 1 100 30).stats.endingCanonicalCount = 3 ∧
    (runRegistryCrawler c3Env {} ["s"] 1 100 30).stats.totalCanonicalAdded = 0 :=
  ⟨by decide, by decide, by decide⟩

/-- Discovery returns the same single URL every iteration: new in
iteration 1, already seen afterwards. -/
def c9Env : CrawlerEnv :=
  { listingLinks := fun _ _ => ["u1"]
    content := fun u => ⟨200, u⟩
    parse := fun _ c => { title := "t", address := some (c ++ " Elm St") }
    sid := fun _ => none }

/-- **C9** (counterexample) Iteration 1 finds one new URL; every later
iteration re-discovers only that already-seen URL, contributing zero new
URLs — per the claim the loop should end with iteration 2.  Instead it
runs all `MAX_LOOPS = 10` iterations (one discovery each, so 10
discovered in total), because the saturation check tests the cumulative
run total `stats.totalNewUrls` (= 1 ≠ 0), not the iteration's count. -/
theorem c9_counterexample :
    (runRegistryCrawler c9Env {} ["s"] 1000 100 30).stats.loopsRun = 10 ∧
    (runRegistryCrawler c9Env {} ["s"] 1000 100 30).stats.totalNewUrls = 1 ∧
    (runRegistryCrawler c9Env {} ["s"] 1000 100 30).stats.totalDiscovered = 10 :=
  ⟨by decide, by decide, by decide⟩

/-- **C9** (amended) At the end of an outer-loop iteration the crawler
terminates exactly when the cumulative number of new URLs discovered over
the whole run so far is zero — which can only be the case when no
iteration, including this one, found any new URL.  An iteration that
itself discovers zero new URLs does not end the loop when an earlier
iteration found some. -/
theorem c9_saturation_checks_cumulative (env : CrawlerEnv) (sources : List String)
    (target maxUrls batchSize fuel : Nat) (st : CrawlState)
    (hurl : st.urlsAttempted < maxUrls)
    (hcount : (bumpLoop st).db.units.length < target) :
    (((crawlBody env sources target maxUrls batchSize (bumpLoop st)).stats.totalNewUrls = 0) →
      crawlLoops env sources target maxUrls batchSize (fuel + 1) st =
        crawlBody env sources target maxUrls batchSize (bumpLoop st)) ∧
    (((crawlBody env sources target maxUrls batchSize (bumpLoop st)).stats.totalNewUrls ≠ 0) →
      crawlLoops env sources target maxUrls batchSize (fuel + 1) st =
        crawlLoops env sources target maxUrls batchSize fuel
          (crawlBody env sources target maxUrls batchSize (bumpLoop st))) := by
  have hstep : crawlLoops env sources target maxUrls batchSize (fuel + 1) st =
      (if maxUrls ≤ st.urlsAttempted then st
       else
        if target ≤ (bumpLoop st).db.units.length then bumpLoop st
        else
          if (crawlBody env sources target maxUrls batchSize (bumpLoop st)).stats.totalNewUrls == 0
          then crawlBody env sources target maxUrls batchSize (bumpLoop st)
          else crawlLoops env sources target maxUrls batchSize fuel
            (crawlBody env sources target maxUrls batchSize (bumpLoop st))) := rfl
  constructor
  · intro h
    rw [hstep, if_neg (by omega), if_neg (by omega), if_pos (by simp [h])]
  · intro h
    rw [hstep, if_neg (by omega), if_neg (by omega), if_neg (by simp [h])]

/-- A source whose discovery yields nothing at all. -/
def c9wEnv : CrawlerEnv :=
  { listingLinks := fun _ _ => []
    content := fun u => ⟨200, u⟩
    parse := fun _ _ => { title := "t" }
    sid := fun _ => none }

theorem c9_witness :
    crawlLoops c9wEnv ["s"] 5 10 30 10 ⟨{}, {}, 0⟩ =
      crawlBody c9wEnv ["s"] 5 10 30 (bumpLoop ⟨{}, {}, 0⟩) :=
  (c9_saturation_checks_cumulative c9wEnv ["s"] 5 10 30 9 ⟨{}, {}, 0⟩
    (by decide) (by decide)).1 (by decide)

end Hunter
